import Mathlib

/-!
Verification of the incremental asset-caching engine of `landmarkerio`
(`landmarkerio/cache.py`), as a shallow embedding in Lean.

Conventions of the embedding:
* filesystem paths are plain strings with POSIX separators;
* the contents of the cache directory are modelled explicitly as an
  association list from entry name to entry (regular file or
  subdirectory with its files), so that the effect of every write is
  visible in the state;
* the external codec capabilities (`menpo.io.import_image`,
  `menpo.io.import_mesh`) are parameters of the pipeline functions,
  returning either a decoded asset or an error;
* Python exceptions are modelled as explicit error values threaded
  through the state: a function returns its final state together with
  an optional error, so that the filesystem effects performed before a
  failure remain observable, exactly as on a real filesystem;
* `print` calls other than the orchestrator's progress line carry no
  state and are modelled only where a claim mentions them: the
  orchestrator (`serial_cacher`) and `build_cache` return the list of
  progress messages they emit;
* arithmetic on pixel dimensions is exact (`Nat`); `int(...)` applied
  to a nonnegative quotient is truncation, i.e. `Nat` division.
-/

namespace Landmarkerio

/-- Split a character list on a separator character. -/
def splitCharAux (sep : Char) : List Char → List Char → List (List Char)
  | [], cur => [cur.reverse]
  | c :: rest, cur =>
    if c = sep then cur.reverse :: splitCharAux sep rest []
    else splitCharAux sep rest (c :: cur)

/-- The stem of the final path component, following `pathlib.Path.stem`:
the last `/`-separated component, with its final `.suffix` removed when
that dot is neither the first nor the last character of the name.
Mirrors `asset_id_for_path` in `cache.py`. -/
def asset_id_for_path (fp : String) : String :=
  let cs := (splitCharAux '/' fp.toList []).getLastD []
  match cs.reverse.findIdx? (fun c => c == '.') with
  | none => cs.asString
  | some k =>
    let i := cs.length - 1 - k
    if 0 < i ∧ i < cs.length - 1 then (cs.take i).asString else cs.asString

/-- The data carried by the `RuntimeError` raised by
`build_asset_mapping` when two paths map to the same asset id: the id
and both conflicting paths. -/
structure DuplicateAssetId where
  assetId : String
  firstPath : String
  secondPath : String
deriving DecidableEq

/-- The message string of the `RuntimeError`:
`'asset_id {} is not unique - links to {} and {}'`. -/
def duplicate_error_message (e : DuplicateAssetId) : String :=
  "asset_id " ++ e.assetId ++ " is not unique - links to " ++
    e.firstPath ++ " and " ++ e.secondPath

/-- Loop body of `build_asset_mapping`: fold the remaining paths into
the accumulated id → path mapping, stopping with an error at the first
path whose id is already mapped. -/
def buildAssetMappingAux (acc : List (String × String)) :
    List String → Except DuplicateAssetId (List (String × String))
  | [] => Except.ok acc
  | path :: rest =>
    match acc.lookup (asset_id_for_path path) with
    | some prev => Except.error ⟨asset_id_for_path path, prev, path⟩
    | none => buildAssetMappingAux (acc ++ [(asset_id_for_path path, path)]) rest

/-- Embedding of `build_asset_mapping` from `cache.py`: derive an id for every path
and build the id → path mapping, failing on the first duplicate id. -/
def build_asset_mapping (paths : List String) :
    Except DuplicateAssetId (List (String × String)) :=
  buildAssetMappingAux [] paths

/-- Keys of an association list. -/
def assocKeys {β : Type} (l : List (String × β)) : List String :=
  l.map Prod.fst

theorem lookup_eq_none_iff {β : Type} (l : List (String × β)) (k : String) :
    l.lookup k = none ↔ k ∉ assocKeys l := by
  induction l with
  | nil => simp [assocKeys, List.lookup]
  | cons pr rest ih =>
    obtain ⟨a, b⟩ := pr
    by_cases h : k = a
    · subst h
      simp [assocKeys, List.lookup]
    · have hb : (k == a) = false := beq_eq_false_iff_ne.mpr h
      simp [assocKeys, List.lookup, hb, h, ih, assocKeys] at *

theorem lookup_append {β : Type} (l1 l2 : List (String × β)) (k : String) :
    (l1 ++ l2).lookup k =
      match l1.lookup k with
      | some v => some v
      | none => l2.lookup k := by
  induction l1 with
  | nil => simp [List.lookup]
  | cons pr rest ih =>
    obtain ⟨a, b⟩ := pr
    by_cases h : k = a
    · subst h
      simp [List.lookup]
    · have hb : (k == a) = false := beq_eq_false_iff_ne.mpr h
      simp [List.lookup, hb, ih]

theorem buildAssetMappingAux_ok (paths : List String) :
    ∀ acc : List (String × String),
    (∀ p ∈ paths, acc.lookup (asset_id_for_path p) = none) →
    (paths.map asset_id_for_path).Nodup →
    buildAssetMappingAux acc paths =
      Except.ok (acc ++ paths.map (fun p => (asset_id_for_path p, p))) := by
  induction paths with
  | nil => intro acc _ _; simp [buildAssetMappingAux]
  | cons p rest ih =>
    intro acc hnone hnd
    rw [List.map_cons, List.nodup_cons] at hnd
    have h1 : acc.lookup (asset_id_for_path p) = none := hnone p (by simp)
    have step : buildAssetMappingAux (acc ++ [(asset_id_for_path p, p)]) rest =
        Except.ok ((acc ++ [(asset_id_for_path p, p)]) ++
          rest.map (fun q => (asset_id_for_path q, q))) := by
      refine ih _ (fun q hq => ?_) hnd.2
      rw [lookup_append, hnone q (by simp [hq])]
      have hne : asset_id_for_path q ≠ asset_id_for_path p := by
        intro hEq
        exact hnd.1 (hEq ▸ List.mem_map_of_mem asset_id_for_path hq)
      simp [List.lookup, beq_eq_false_iff_ne.mpr hne]
    simp only [buildAssetMappingAux, h1, step]
    simp [List.append_assoc]

theorem buildAssetMappingAux_append (l1 l2 : List String) :
    ∀ acc : List (String × String),
    buildAssetMappingAux acc (l1 ++ l2) =
      match buildAssetMappingAux acc l1 with
      | Except.ok acc2 => buildAssetMappingAux acc2 l2
      | Except.error e => Except.error e := by
  induction l1 with
  | nil => intro acc; simp [buildAssetMappingAux]
  | cons p rest ih =>
    intro acc
    cases h : acc.lookup (asset_id_for_path p) with
    | some prev => simp [buildAssetMappingAux, h]
    | none => simp [buildAssetMappingAux, h, ih]

theorem lookup_map_stem (l : List String) (k : String)
    (h : k ∈ l.map asset_id_for_path) :
    ∃ w, (l.map (fun p => (asset_id_for_path p, p))).lookup k = some w ∧
      w ∈ l ∧ asset_id_for_path w = k := by
  induction l with
  | nil => simp at h
  | cons p rest ih =>
    by_cases hk : k = asset_id_for_path p
    · exact ⟨p, by simp [List.lookup, hk], by simp, hk.symm⟩
    · have h2 : k ∈ rest.map asset_id_for_path := by
        rw [List.map_cons] at h
        rcases List.mem_cons.mp h with h3 | h3
        · exact absurd h3 hk
        · exact h3
      obtain ⟨w, hw1, hw2, hw3⟩ := ih h2
      exact ⟨w, by simp [List.lookup, beq_eq_false_iff_ne.mpr hk, hw1],
        by simp [hw2], hw3⟩

theorem map_snd_map_pair {α β : Type} (f : α → β) (l : List α) :
    (l.map (fun p => (f p, p))).map Prod.snd = l := by
  induction l with
  | nil => rfl
  | cons a t ih => simp only [List.map_cons, ih]

/-- Claim C4: for every set of N source paths with pairwise-distinct
filename stems, the Asset Mapper succeeds and produces a mapping of
exactly N entries, each key being the filename stem of its path. -/
theorem build_asset_mapping_distinct_stems_ok (paths : List String)
    (h : (paths.map asset_id_for_path).Nodup) :
    ∃ m, build_asset_mapping paths = Except.ok m ∧
      m.length = paths.length ∧
      (∀ pr ∈ m, pr.1 = asset_id_for_path pr.2) ∧
      m.map Prod.snd = paths := by
  refine ⟨paths.map (fun p => (asset_id_for_path p, p)), ?_, by simp, ?_,
    map_snd_map_pair _ _⟩
  · have := buildAssetMappingAux_ok paths [] (fun p _ => rfl) h
    simpa [build_asset_mapping] using this
  · intro pr hpr
    obtain ⟨p, _, rfl⟩ := List.mem_map.mp hpr
    rfl

theorem build_asset_mapping_distinct_stems_ok_witness :
    ((["a/x.jpg", "b/y.png"].map asset_id_for_path).Nodup) ∧
    (∃ m, build_asset_mapping ["a/x.jpg", "b/y.png"] = Except.ok m ∧
      m.length = (["a/x.jpg", "b/y.png"] : List String).length ∧
      (∀ pr ∈ m, pr.1 = asset_id_for_path pr.2) ∧
      m.map Prod.snd = ["a/x.jpg", "b/y.png"]) :=
  ⟨by decide, build_asset_mapping_distinct_stems_ok _ (by decide)⟩

theorem first_occurrence {α β : Type} (f : α → β) (v : β) (t : List α)
    (h : v ∈ t.map f) :
    ∃ t1 b t2, t = t1 ++ b :: t2 ∧ f b = v ∧ v ∉ t1.map f := by
  induction t with
  | nil => simp at h
  | cons c t' ih =>
    by_cases hc : f c = v
    · exact ⟨[], c, t', rfl, hc, by simp⟩
    · have h2 : v ∈ t'.map f := by
        rw [List.map_cons] at h
        rcases List.mem_cons.mp h with h3 | h3
        · exact absurd h3.symm hc
        · exact h3
      obtain ⟨t1, b, t2, rfl, hb, hnb⟩ := ih h2
      refine ⟨c :: t1, b, t2, rfl, hb, ?_⟩
      rw [List.map_cons]
      intro hmem
      rcases List.mem_cons.mp hmem with h3 | h3
      · exact hc h3.symm
      · exact hnb h3

theorem first_conflict {α β : Type} (f : α → β) (l : List α)
    (h : ¬ (l.map f).Nodup) :
    ∃ pre q post, l = pre ++ q :: post ∧ (pre.map f).Nodup ∧ f q ∈ pre.map f := by
  induction l with
  | nil => simp at h
  | cons a t ih =>
    by_cases ht : (t.map f).Nodup
    · have ha : f a ∈ t.map f := by
        by_contra hna
        exact h (by rw [List.map_cons, List.nodup_cons]; exact ⟨hna, ht⟩)
      obtain ⟨t1, b, t2, rfl, hb, hnb⟩ := first_occurrence f (f a) t ha
      refine ⟨a :: t1, b, t2, rfl, ?_, ?_⟩
      · rw [List.map_cons, List.nodup_cons]
        exact ⟨hnb, ht.sublist ((List.sublist_append_left t1 (b :: t2)).map f)⟩
      · rw [List.map_cons, hb]
        exact List.mem_cons_self _ _
    · obtain ⟨pre, q, post, rfl, hpre, hq⟩ := ih ht
      by_cases hb : f a ∈ pre.map f
      · obtain ⟨t1, b, t2, hpre_eq, hbb, hnb⟩ := first_occurrence f (f a) pre hb
        refine ⟨a :: t1, b, t2 ++ q :: post, by rw [hpre_eq]; simp, ?_, ?_⟩
        · rw [List.map_cons, List.nodup_cons]
          refine ⟨hnb, hpre.sublist ?_⟩
          rw [hpre_eq]
          exact (List.sublist_append_left t1 (b :: t2)).map f
        · rw [List.map_cons, hbb]
          exact List.mem_cons_self _ _
      · refine ⟨a :: pre, q, post, rfl, ?_, ?_⟩
        · rw [List.map_cons, List.nodup_cons]
          exact ⟨hb, hpre⟩
        · rw [List.map_cons]
          exact List.mem_cons_of_mem _ hq

/-- Claim C3: for every sequence of asset paths in which some two
distinct paths share a filename stem, the Asset Mapper fails with a
`DuplicateAssetId` error at the moment the second such path is
encountered (the prefix before that path is conflict-free, and the
result is already determined by the input truncated there, so the
remaining paths are never consulted), the error names both conflicting
paths, and no mapping is returned. -/
theorem build_asset_mapping_duplicate_fails (paths : List String)
    (h : ∃ p ∈ paths, ∃ q ∈ paths,
      p ≠ q ∧ asset_id_for_path p = asset_id_for_path q) :
    ∃ pre q post e, paths = pre ++ q :: post ∧
      (pre.map asset_id_for_path).Nodup ∧
      e.assetId = asset_id_for_path q ∧
      e.secondPath = q ∧
      e.firstPath ∈ pre ∧
      asset_id_for_path e.firstPath = e.assetId ∧
      build_asset_mapping paths = Except.error e ∧
      build_asset_mapping (pre ++ [q]) = Except.error e := by
  have hnd : ¬ (paths.map asset_id_for_path).Nodup := by
    intro hnodup
    obtain ⟨p, hp, q, hq, hne, hstem⟩ := h
    exact hne (List.inj_on_of_nodup_map hnodup hp hq hstem)
  obtain ⟨pre, q, post, rfl, hpre, hq⟩ := first_conflict asset_id_for_path _ hnd
  obtain ⟨w, hw_lookup, hw_mem, hw_stem⟩ := lookup_map_stem pre (asset_id_for_path q) hq
  refine ⟨pre, q, post, ⟨asset_id_for_path q, w, q⟩, rfl, hpre, rfl, rfl,
    hw_mem, hw_stem, ?_, ?_⟩
  · unfold build_asset_mapping
    rw [buildAssetMappingAux_append pre (q :: post) [],
      buildAssetMappingAux_ok pre [] (fun p _ => rfl) hpre]
    simp [buildAssetMappingAux, hw_lookup]
  · unfold build_asset_mapping
    rw [buildAssetMappingAux_append pre [q] [],
      buildAssetMappingAux_ok pre [] (fun p _ => rfl) hpre]
    simp [buildAssetMappingAux, hw_lookup]

theorem build_asset_mapping_duplicate_fails_witness :
    (∃ p ∈ (["a/x.jpg", "b/x.png"] : List String),
       ∃ q ∈ (["a/x.jpg", "b/x.png"] : List String),
       p ≠ q ∧ asset_id_for_path p = asset_id_for_path q) ∧
    (∃ pre q post e, (["a/x.jpg", "b/x.png"] : List String) = pre ++ q :: post ∧
      (pre.map asset_id_for_path).Nodup ∧
      e.assetId = asset_id_for_path q ∧
      e.secondPath = q ∧
      e.firstPath ∈ pre ∧
      asset_id_for_path e.firstPath = e.assetId ∧
      build_asset_mapping ["a/x.jpg", "b/x.png"] = Except.error e ∧
      build_asset_mapping (pre ++ [q]) = Except.error e) :=
  ⟨by decide, build_asset_mapping_duplicate_fails _ (by decide)⟩

/-- A decoded image, as returned by `mio.import_image` and as carried
by a textured mesh: pixel dimensions plus the io info the image
pipeline consults (`ioinfo.extension`, `ioinfo.filepath`). -/
structure Image where
  width : Nat
  height : Nat
  ioinfo_ext : String
  ioinfo_filepath : String
deriving DecidableEq

/-- A decoded mesh, as returned by `mio.import_mesh`: its serialized
geometry (`mesh.tojson()`, kept opaque as a string) and, when the mesh
is a `TexturedTriMesh`, its embedded texture image. -/
structure MeshAsset where
  json : String
  texture : Option Image
deriving DecidableEq

/-- Contents of one file inside an asset's cache subdirectory. -/
inductive FileContent where
  /-- The `{width, height}` json record. -/
  | infoJson (width height : Nat)
  /-- Verbatim copy of the original jpg (`shutil.copyfile`). -/
  | jpgBytes (srcPath : String)
  /-- The image re-encoded as jpeg (`img.as_PILImage().save`). -/
  | reencodedJpg (img : Image)
  /-- The resized jpeg thumbnail, saved at quality 20. -/
  | thumbJpg (img : Image) (w h : Nat)
  /-- The gzip-compressed mesh json (`compresslevel=1`). -/
  | gzJson (s : String)
deriving DecidableEq

/-- One entry of the cache directory: either a regular file or a
subdirectory with its files. -/
inductive DirEntry where
  | file
  | dir (files : List (String × FileContent))
deriving DecidableEq

/-- The observable state of the cache directory: an association list
from entry name to entry, in creation order (`os.listdir`). -/
abbrev FS := List (String × DirEntry)

/-- Errors propagating out of the caching pipeline, modelling the
Python exceptions. -/
inductive CacheError where
  /-- Raised by `os.mkdir` on an existing path. -/
  | fileExists (name : String)
  /-- a decode failure inside `mio.import_image` / `mio.import_mesh`. -/
  | decodeError (path : String)
  /-- a write failure (target directory missing). -/
  | ioError (path : String)
  /-- the `RuntimeError` of `build_asset_mapping`. -/
  | duplicateAssetId (e : DuplicateAssetId)
deriving DecidableEq

/-- The type of a per-asset caching function (`cache_f` in the source):
it receives the source path and the asset id, mutates the cache
directory, and either succeeds or raises.  The returned state reflects
all writes performed before a failure. -/
abbrev CacheF := String → String → FS → FS × Option CacheError

/-- Names present in the cache directory (`os.listdir(cache_dir)`). -/
def fs_names (fs : FS) : List String := fs.map Prod.fst

/-- Replace the entry named `id` (first occurrence) by `e`. -/
def fs_update : FS → String → DirEntry → FS
  | [], _, _ => []
  | (n, d) :: rest, id, e => if n = id then (n, e) :: rest else (n, d) :: fs_update rest id e

/-- Write (create or truncate) file `fname` inside the subdirectory of
`files`, as `open(..., 'wb')` does. -/
def files_write : List (String × FileContent) → String → FileContent →
    List (String × FileContent)
  | [], fname, c => [(fname, c)]
  | (g, d) :: rest, fname, c =>
    if g = fname then (g, c) :: rest else (g, d) :: files_write rest fname c

/-- Write file `fname` with content `c` inside the cache subdirectory
named `id`; fails with an `IOError` when that subdirectory does not
exist. -/
def write_file (fs : FS) (id fname : String) (c : FileContent) :
    FS × Option CacheError :=
  match fs.lookup id with
  | some (DirEntry.dir files) =>
    (fs_update fs id (DirEntry.dir (files_write files fname c)), none)
  | _ => (fs, some (CacheError.ioError (id ++ "/" ++ fname)))

/-- Modelled from the spec: the fixed cache-entry filenames
(`IMAGE_INFO_FILENAME`, `TEXTURE_FILENAME`, `THUMBNAIL_FILENAME`,
`MESH_FILENAME`) are imported from the `landmarkerio` package, whose
source is not part of this repository snapshot; §6 of the spec fixes
the cache directory layout to `image-info`, `texture`, `thumbnail` and
`mesh`. -/
def IMAGE_INFO_FILENAME : String := "image-info"

/-- Modelled from the spec: see `IMAGE_INFO_FILENAME`. -/
def TEXTURE_FILENAME : String := "texture"

/-- Modelled from the spec: see `IMAGE_INFO_FILENAME`. -/
def THUMBNAIL_FILENAME : String := "thumbnail"

/-- Modelled from the spec: see `IMAGE_INFO_FILENAME`. -/
def MESH_FILENAME : String := "mesh"

/-- The pixel size of the thumbnail written by
`save_jpg_thumbnail_file(img, path, width=640)`: the PIL image is
resized to `(width, int(h * 1. / w * width))`, i.e. fixed width and
the exact ratio `h * width / w` truncated toward zero (`Nat`
division). -/
def save_jpg_thumbnail_size (img : Image) (width : Nat) : Nat × Nat :=
  (width, img.height * width / img.width)

/-- Rounding of `num / den` to the nearest integer (half rounds up);
used only to state what the spec's `round(H × 640 / W)` would be. -/
def round_div (num den : Nat) : Nat := (2 * num + den) / (2 * den)

/-- Claim C1 (amended): the thumbnail written by the image pipeline has
width exactly 640 — applied unconditionally, also when the source is
narrower than 640 — and height `int(H × 640 / W)`, the exact ratio
truncated toward zero: the height `t` is characterized by
`t * W ≤ H * 640 < (t + 1) * W`. -/
theorem save_jpg_thumbnail_file_geometry (img : Image) (hw : 0 < img.width) :
    (save_jpg_thumbnail_size img 640).1 = 640 ∧
    (save_jpg_thumbnail_size img 640).2 * img.width ≤ img.height * 640 ∧
    img.height * 640 < ((save_jpg_thumbnail_size img 640).2 + 1) * img.width := by
  refine ⟨rfl, ?_, ?_⟩
  · exact Nat.div_mul_le_self _ _
  · have h1 := Nat.div_add_mod (img.height * 640) img.width
    have h2 := Nat.mod_lt (img.height * 640) hw
    calc img.height * 640
        = img.width * (img.height * 640 / img.width) + img.height * 640 % img.width :=
          h1.symm
      _ < img.width * (img.height * 640 / img.width) + img.width := by omega
      _ = (img.height * 640 / img.width + 1) * img.width := by ring
      _ = ((save_jpg_thumbnail_size img 640).2 + 1) * img.width := rfl

theorem save_jpg_thumbnail_file_geometry_witness :
    0 < (Image.mk 3 2 ".jpg" "im.jpg").width ∧
    ((save_jpg_thumbnail_size (Image.mk 3 2 ".jpg" "im.jpg") 640).1 = 640 ∧
     (save_jpg_thumbnail_size (Image.mk 3 2 ".jpg" "im.jpg") 640).2 *
       (Image.mk 3 2 ".jpg" "im.jpg").width ≤
       (Image.mk 3 2 ".jpg" "im.jpg").height * 640 ∧
     (Image.mk 3 2 ".jpg" "im.jpg").height * 640 <
       ((save_jpg_thumbnail_size (Image.mk 3 2 ".jpg" "im.jpg") 640).2 + 1) *
         (Image.mk 3 2 ".jpg" "im.jpg").width) :=
  ⟨by decide, save_jpg_thumbnail_file_geometry _ (by decide)⟩

/-- Counterexample to claim C1 as stated: for a 3-wide, 2-high source
the code computes height `int(2 · 640 / 3) = 426`, while
`round(2 · 640 / 3) = 427`: truncation, not rounding. -/
theorem save_jpg_thumbnail_file_not_round :
    (save_jpg_thumbnail_size (Image.mk 3 2 ".jpg" "im.jpg") 640).2 = 426 ∧
    round_div ((Image.mk 3 2 ".jpg" "im.jpg").height * 640)
      (Image.mk 3 2 ".jpg" "im.jpg").width = 427 ∧
    (save_jpg_thumbnail_size (Image.mk 3 2 ".jpg" "im.jpg") 640).2 ≠
      round_div ((Image.mk 3 2 ".jpg" "im.jpg").height * 640)
        (Image.mk 3 2 ".jpg" "im.jpg").width := by
  refine ⟨rfl, rfl, by decide⟩

/-- Embedding of `cache_asset` from `cache.py`: ensure the asset's cache
subdirectory exists (`os.mkdir` raises when a regular file of that
name is in the way), then run the per-kind caching function. -/
def cache_asset (cache_f : CacheF) (path id : String) (fs : FS) :
    FS × Option CacheError :=
  match fs.lookup id with
  | some (DirEntry.dir _) => cache_f path id fs
  | some DirEntry.file => (fs, some (CacheError.fileExists id))
  | none => cache_f path id (fs ++ [(id, DirEntry.dir [])])

/-- Embedding of `_cache_image_for_id`: write the width/height metadata, the
normalized texture (a byte-for-byte copy when the original is already
a jpg, a re-encode otherwise) and the quality-20 thumbnail, in that
order, into the asset's cache subdirectory. -/
def cache_image_for_id (id : String) (img : Image) (fs : FS) :
    FS × Option CacheError :=
  match write_file fs id IMAGE_INFO_FILENAME (FileContent.infoJson img.width img.height) with
  | (fs1, some e) => (fs1, some e)
  | (fs1, none) =>
    match write_file fs1 id TEXTURE_FILENAME
        (if img.ioinfo_ext = ".jpg" then FileContent.jpgBytes img.ioinfo_filepath
         else FileContent.reencodedJpg img) with
    | (fs2, some e) => (fs2, some e)
    | (fs2, none) =>
      write_file fs2 id THUMBNAIL_FILENAME
        (FileContent.thumbJpg img (save_jpg_thumbnail_size img 640).1
          (save_jpg_thumbnail_size img 640).2)

/-- Embedding of `cache_image`: decode the source image (external codec capability,
passed as a parameter) and run the image pipeline for the id. -/
def cache_image (importImage : String → Except CacheError Image) : CacheF :=
  fun path id fs =>
    match importImage path with
    | Except.error e => (fs, some e)
    | Except.ok img => cache_image_for_id id img fs

/-- Embedding of `_cache_mesh_for_id`: gzip the serialized mesh geometry into the
fixed geometry filename. -/
def cache_mesh_for_id (id : String) (mesh : MeshAsset) (fs : FS) :
    FS × Option CacheError :=
  write_file fs id MESH_FILENAME (FileContent.gzJson mesh.json)

/-- Embedding of `cache_mesh`: decode the source mesh (external codec capability,
passed as a parameter); when it is a `TexturedTriMesh`, first run the
image pipeline on the embedded texture under the same id, then write
the geometry. -/
def cache_mesh (importMesh : String → Except CacheError MeshAsset) : CacheF :=
  fun path id fs =>
    match importMesh path with
    | Except.error e => (fs, some e)
    | Except.ok mesh =>
      match mesh.texture with
      | some tex =>
        match cache_image_for_id id tex fs with
        | (fs1, some e) => (fs1, some e)
        | (fs1, none) => cache_mesh_for_id id mesh fs1
      | none => cache_mesh_for_id id mesh fs

/-- Loop of `serial_cacher`, carrying the 0-based `enumerate` counter
`i` and the total count: print `'Caching {}/{} - {}'.format(i + 1,
len(path_asset_id), asset_id)`, then invoke the caching function; an
exception aborts the loop at once. -/
def serialCacherAux (cache : CacheF) (total : Nat) :
    Nat → List (String × String) → FS → List String × FS × Option CacheError
  | _, [], fs => ([], fs, none)
  | i, (path, id) :: rest, fs =>
    let msg := "Caching " ++ toString (i + 1) ++ "/" ++ toString total ++ " - " ++ id
    match cache path id fs with
    | (fs1, some e) => ([msg], fs1, some e)
    | (fs1, none) =>
      let r := serialCacherAux cache total (i + 1) rest fs1
      (msg :: r.1, r.2)

/-- Embedding of `serial_cacher` from `cache.py`: iterate over the `(path, id)`
pairs sequentially, emitting a progress message before each
invocation.  Returns the emitted messages, the final cache-directory
state, and the first error if one was raised. -/
def serial_cacher (cache : CacheF) (path_asset_id : List (String × String))
    (fs : FS) : List String × FS × Option CacheError :=
  serialCacherAux cache path_asset_id.length 0 path_asset_id fs

/-- Reference runner used to state properties of the orchestrator: run
the caching function over the pairs, returning the final state when
every invocation succeeds and `none` otherwise. -/
def run_ok (cache : CacheF) : List (String × String) → FS → Option FS
  | [], fs => some fs
  | pr :: rest, fs =>
    match cache pr.1 pr.2 fs with
    | (fs1, none) => run_ok cache rest fs1
    | (_, some _) => none

/-- The type of the batch driver (`cacher_f` in the source). -/
abbrev CacherF :=
  CacheF → List (String × String) → FS → List String × FS × Option CacheError

/-- The uncached asset ids of `build_cache`:
`set(asset_id_to_paths.iterkeys()) - set(os.listdir(cache_dir))`,
listed here in mapping order.  CPython enumerates the resulting `set`
in an unspecified, hash-dependent order; that enumeration is the
explicit `setToList` parameter below. -/
def uncached_ids (m : List (String × String)) (fs : FS) : List String :=
  (m.map Prod.fst).filter (fun a => decide (a ∉ fs_names fs))

/-- The `(path, asset_id)` work list of `build_cache`:
`[(asset_id_to_paths[a_id], a_id) for a_id in uncached]`, where the
iteration order over the `uncached` set is the enumeration
`setToList`. -/
def uncached_pairs (setToList : List String → List String)
    (m : List (String × String)) (fs : FS) : List (String × String) :=
  (setToList (uncached_ids m fs)).map (fun a => ((m.lookup a).getD "", a))

/-- Embedding of `build_cache` from `cache.py`: map ids to paths (propagating the
duplicate-id error), diff against the entries already present in the
cache directory, drive the batch driver over the uncached pairs, and
return the cache directory path.  Directory validation
(`ensure_asset_dir` / `ensure_cache_dir`) and glob construction are
modelled as already performed: the enumerated asset paths and the
cache-directory state are the inputs.  Returns the printed messages,
the final cache-directory state, and either the propagated error or
the returned `cache_dir`. -/
def build_cache (cacher_f : CacherF) (setToList : List String → List String)
    (asset_paths : List String) (cache_f : CacheF) (cache_dir : String)
    (fs : FS) : List String × FS × Except CacheError String :=
  match build_asset_mapping asset_paths with
  | Except.error e => ([], fs, Except.error (CacheError.duplicateAssetId e))
  | Except.ok m =>
    let pairs := uncached_pairs setToList m fs
    let header := toString pairs.length ++ " assets need to be added to the cache"
    let r := cacher_f (cache_asset cache_f) pairs fs
    match r.2.2 with
    | some e => (header :: r.1, r.2.1, Except.error e)
    | none =>
      (header :: r.1 ++
        (if 0 < pairs.length then [toString pairs.length ++ " assets cached."] else []),
       r.2.1, Except.ok cache_dir)

theorem serialCacherAux_nil (cache : CacheF) (total i : Nat) (fs : FS) :
    serialCacherAux cache total i [] fs = ([], fs, none) := rfl

theorem serialCacherAux_cons (cache : CacheF) (total i : Nat)
    (path id : String) (rest : List (String × String)) (fs : FS) :
    serialCacherAux cache total i ((path, id) :: rest) fs =
      (match cache path id fs with
       | (fs1, some e) =>
         (["Caching " ++ toString (i + 1) ++ "/" ++ toString total ++ " - " ++ id],
          fs1, some e)
       | (fs1, none) =>
         (("Caching " ++ toString (i + 1) ++ "/" ++ toString total ++ " - " ++ id) ::
            (serialCacherAux cache total (i + 1) rest fs1).1,
          (serialCacherAux cache total (i + 1) rest fs1).2)) := rfl

theorem run_ok_nil (cache : CacheF) (fs : FS) : run_ok cache [] fs = some fs := rfl

theorem run_ok_cons (cache : CacheF) (pr : String × String)
    (rest : List (String × String)) (fs : FS) :
    run_ok cache (pr :: rest) fs =
      (match cache pr.1 pr.2 fs with
       | (fs1, none) => run_ok cache rest fs1
       | (_, some _) => none) := rfl

theorem serialCacherAux_ok (cache : CacheF) (total : Nat) :
    ∀ (pairs : List (String × String)) (i : Nat) (fs fsEnd : FS),
    run_ok cache pairs fs = some fsEnd →
    serialCacherAux cache total i pairs fs =
      ((List.enumFrom i pairs).map
        (fun x => "Caching " ++ toString (x.1 + 1) ++ "/" ++ toString total ++
          " - " ++ x.2.2), fsEnd, none) := by
  intro pairs
  induction pairs with
  | nil =>
    intro i fs fsEnd hrun
    rw [run_ok_nil] at hrun
    cases hrun
    simp [serialCacherAux_nil, List.enumFrom]
  | cons pr rest ih =>
    intro i fs fsEnd hrun
    obtain ⟨path, id⟩ := pr
    rw [run_ok_cons] at hrun
    cases hc : cache path id fs with
    | mk fs1 r =>
      rw [hc] at hrun
      cases r with
      | some e => simp at hrun
      | none =>
        have hIH := ih (i + 1) fs1 fsEnd (by simpa using hrun)
        rw [serialCacherAux_cons, hc]
        simp [hIH, List.enumFrom]

theorem serialCacherAux_error (cache : CacheF) (total : Nat) :
    ∀ (pairs : List (String × String)) (k i : Nat) (fs fsk fs1 : FS)
      (e : CacheError) (hk : k < pairs.length),
    run_ok cache (pairs.take k) fs = some fsk →
    cache (pairs.get ⟨k, hk⟩).1 (pairs.get ⟨k, hk⟩).2 fsk = (fs1, some e) →
    serialCacherAux cache total i pairs fs =
      ((List.enumFrom i (pairs.take (k + 1))).map
        (fun x => "Caching " ++ toString (x.1 + 1) ++ "/" ++ toString total ++
          " - " ++ x.2.2), fs1, some e) := by
  intro pairs
  induction pairs with
  | nil =>
    intro k i fs fsk fs1 e hk
    simp at hk
  | cons pr rest ih =>
    intro k i fs fsk fs1 e hk hrun hfail
    obtain ⟨path, id⟩ := pr
    cases k with
    | zero =>
      rw [List.take_zero, run_ok_nil] at hrun
      cases hrun
      have hfail' : cache path id fs = (fs1, some e) := by simpa using hfail
      rw [serialCacherAux_cons, hfail']
      simp [List.enumFrom]
    | succ k' =>
      rw [List.take_succ_cons, run_ok_cons] at hrun
      cases hc : cache path id fs with
      | mk fsA r =>
        rw [hc] at hrun
        cases r with
        | some e2 => simp at hrun
        | none =>
          have hk' : k' < rest.length := by simpa using hk
          have hIH := ih k' (i + 1) fsA fsk fs1 e hk' (by simpa using hrun)
            (by simpa using hfail)
          rw [serialCacherAux_cons, hc]
          simp [hIH, List.enumFrom]

/-- Claim C6: if caching the k-th asset of the uncached list fails, the
orchestrator halts at once and propagates that first error — the state
reached is exactly the one produced by the k successful invocations
followed by the failing one, so entries cached before the failure
remain in place, and progress messages exist only for the first k + 1
assets, the later ones never being attempted; and when every asset
succeeds, `build_cache` returns the cache directory path after all
assets are processed. -/
theorem build_cache_first_error_halts :
    (∀ (cache : CacheF) (pairs : List (String × String)) (fs : FS) (k : Nat)
       (hk : k < pairs.length) (fsk fs1 : FS) (e : CacheError),
       run_ok cache (pairs.take k) fs = some fsk →
       cache (pairs.get ⟨k, hk⟩).1 (pairs.get ⟨k, hk⟩).2 fsk = (fs1, some e) →
       serial_cacher cache pairs fs =
         ((List.enumFrom 0 (pairs.take (k + 1))).map
           (fun x => "Caching " ++ toString (x.1 + 1) ++ "/" ++
             toString pairs.length ++ " - " ++ x.2.2), fs1, some e)) ∧
    (∀ (setToList : List String → List String) (asset_paths : List String)
       (cache_f : CacheF) (cache_dir : String) (fs : FS)
       (m : List (String × String)) (fsEnd : FS),
       build_asset_mapping asset_paths = Except.ok m →
       run_ok (cache_asset cache_f) (uncached_pairs setToList m fs) fs = some fsEnd →
       (build_cache serial_cacher setToList asset_paths cache_f cache_dir fs).2 =
         (fsEnd, Except.ok cache_dir)) := by
  constructor
  · intro cache pairs fs k hk fsk fs1 e hrun hfail
    exact serialCacherAux_error cache pairs.length pairs k 0 fs fsk fs1 e hk hrun hfail
  · intro setToList asset_paths cache_f cache_dir fs m fsEnd hm hrun
    have hser := serialCacherAux_ok (cache_asset cache_f)
      (uncached_pairs setToList m fs).length (uncached_pairs setToList m fs)
      0 fs fsEnd hrun
    simp [build_cache, hm, serial_cacher, hser]

theorem build_cache_first_error_halts_witness :
    (run_ok
        (fun _ id fs => if id = "b" then (fs, some (CacheError.decodeError "q"))
          else (fs ++ [(id, DirEntry.dir [])], none))
        ([("p", "a"), ("q", "b"), ("r", "c")].take 1) [] =
      some [("a", DirEntry.dir [])]) ∧
    ((fun (_ : String) (id : String) (fs : FS) =>
        if id = "b" then (fs, some (CacheError.decodeError "q"))
        else (fs ++ [(id, DirEntry.dir [])], none))
      (([("p", "a"), ("q", "b"), ("r", "c")] :
          List (String × String)).get ⟨1, by decide⟩).1
      (([("p", "a"), ("q", "b"), ("r", "c")] :
          List (String × String)).get ⟨1, by decide⟩).2
      [("a", DirEntry.dir [])] =
      ([("a", DirEntry.dir [])], some (CacheError.decodeError "q"))) ∧
    (serial_cacher
        (fun _ id fs => if id = "b" then (fs, some (CacheError.decodeError "q"))
          else (fs ++ [(id, DirEntry.dir [])], none))
        [("p", "a"), ("q", "b"), ("r", "c")] [] =
      ((List.enumFrom 0 ([("p", "a"), ("q", "b"), ("r", "c")].take 2)).map
        (fun x => "Caching " ++ toString (x.1 + 1) ++ "/" ++
          toString ([("p", "a"), ("q", "b"), ("r", "c")] :
            List (String × String)).length ++ " - " ++ x.2.2),
       [("a", DirEntry.dir [])], some (CacheError.decodeError "q"))) ∧
    (build_asset_mapping ["x/a.jpg"] = Except.ok [("a", "x/a.jpg")]) ∧
    (run_ok (cache_asset (fun _ _ fs => (fs, none)))
        (uncached_pairs (fun l => l) [("a", "x/a.jpg")] []) [] =
      some [("a", DirEntry.dir [])]) ∧
    ((build_cache serial_cacher (fun l => l) ["x/a.jpg"]
        (fun _ _ fs => (fs, none)) "cdir" []).2 =
      ([("a", DirEntry.dir [])], Except.ok "cdir")) :=
  ⟨by decide, by decide,
    build_cache_first_error_halts.1
      (fun _ id fs => if id = "b" then (fs, some (CacheError.decodeError "q"))
        else (fs ++ [(id, DirEntry.dir [])], none))
      [("p", "a"), ("q", "b"), ("r", "c")] [] 1 (by decide)
      [("a", DirEntry.dir [])] [("a", DirEntry.dir [])]
      (CacheError.decodeError "q") (by decide) (by decide),
    by rfl, by decide,
    build_cache_first_error_halts.2 (fun l => l) ["x/a.jpg"]
      (fun _ _ fs => (fs, none)) "cdir" [] [("a", "x/a.jpg")]
      [("a", DirEntry.dir [])] (by rfl) (by decide)⟩

/-- Claim C7 (amended): for every list of `(path, id)` pairs the
orchestrator iterates sequentially and, before each invocation of the
caching function, emits the 1-based progress message
`"Caching {i}/{total} - {id}"`, where `i` is the 1-based position,
`total` the length of the whole list and `id` the asset id: the j-th
emitted message (0-based) is exactly that string for the j-th pair. -/
theorem serial_cacher_progress_message_format (cache : CacheF)
    (pairs : List (String × String)) (fs : FS) (j : Nat)
    (hj : j < (serial_cacher cache pairs fs).1.length) :
    j < pairs.length ∧
    (serial_cacher cache pairs fs).1.getD j "" =
      "Caching " ++ toString (j + 1) ++ "/" ++ toString pairs.length ++
        " - " ++ (pairs.getD j ("", "")).2 := by
  have main : ∀ (ps : List (String × String)) (total i : Nat) (fs0 : FS) (j : Nat),
      j < (serialCacherAux cache total i ps fs0).1.length →
      j < ps.length ∧
      (serialCacherAux cache total i ps fs0).1.getD j "" =
        "Caching " ++ toString (i + j + 1) ++ "/" ++ toString total ++
          " - " ++ (ps.getD j ("", "")).2 := by
    intro ps
    induction ps with
    | nil =>
      intro total i fs0 j hj
      rw [serialCacherAux_nil] at hj
      simp at hj
    | cons pr rest ih =>
      intro total i fs0 j hj
      obtain ⟨path, id⟩ := pr
      cases hc : cache path id fs0 with
      | mk fs1 r =>
        cases r with
        | some e =>
          simp only [serialCacherAux_cons, hc] at hj ⊢
          have hj0 : j = 0 := by simpa using Nat.lt_one_iff.mp (by simpa using hj)
          subst hj0
          exact ⟨by simp, by simp⟩
        | none =>
          simp only [serialCacherAux_cons, hc] at hj ⊢
          cases j with
          | zero => exact ⟨by simp, by simp⟩
          | succ j' =>
            have hj' : j' < (serialCacherAux cache total (i + 1) rest fs1).1.length := by
              simpa using hj
            obtain ⟨hjp', hmsg⟩ := ih total (i + 1) fs1 j' hj'
            refine ⟨by simpa using hjp', ?_⟩
            have harith : i + 1 + j' + 1 = i + (j' + 1) + 1 := by omega
            simp only [List.getD_cons_succ, hmsg, harith]
  have := main pairs pairs.length 0 fs j hj
  simpa using this

theorem serial_cacher_progress_message_format_witness :
    (0 < (serial_cacher (fun _ _ fs => (fs, none)) [("p", "x"), ("q", "y")] []).1.length) ∧
    (0 < ([("p", "x"), ("q", "y")] : List (String × String)).length ∧
      (serial_cacher (fun _ _ fs => (fs, none)) [("p", "x"), ("q", "y")] []).1.getD 0 "" =
        "Caching " ++ toString (0 + 1) ++ "/" ++
          toString ([("p", "x"), ("q", "y")] : List (String × String)).length ++
          " - " ++ (([("p", "x"), ("q", "y")] :
            List (String × String)).getD 0 ("", "")).2) :=
  ⟨by decide,
    serial_cacher_progress_message_format (fun _ _ fs => (fs, none))
      [("p", "x"), ("q", "y")] [] 0 (by decide)⟩

/-- Counterexample to claim C7 as stated: the emitted message is not of
the exact form `"{i}/{total} – {id}"`; it is prefixed with `"Caching "`
and uses a plain hyphen. -/
theorem serial_cacher_progress_message_not_spec_form :
    (serial_cacher (fun _ _ fs => (fs, none)) [("p", "x")] []).1 =
      ["Caching 1/1 - x"] ∧
    (serial_cacher (fun _ _ fs => (fs, none)) [("p", "x")] []).1 ≠
      ["1/1 – x"] := by
  refine ⟨by decide, by decide⟩

theorem lookup_update_self (fs : FS) (id : String) (e e0 : DirEntry)
    (h : fs.lookup id = some e0) : (fs_update fs id e).lookup id = some e := by
  induction fs with
  | nil => simp [List.lookup] at h
  | cons pr rest ih =>
    obtain ⟨n, d⟩ := pr
    by_cases hn : n = id
    · subst hn
      simp [fs_update, List.lookup]
    · have hb : (id == n) = false := beq_eq_false_iff_ne.mpr (Ne.symm hn)
      simp only [List.lookup, hb] at h
      simp [fs_update, hn, List.lookup, hb, ih h]

theorem lookup_update_frame (fs : FS) (id id2 : String) (e : DirEntry)
    (h : id2 ≠ id) : (fs_update fs id e).lookup id2 = fs.lookup id2 := by
  induction fs with
  | nil => rfl
  | cons pr rest ih =>
    obtain ⟨n, d⟩ := pr
    by_cases hn : n = id
    · subst hn
      simp [fs_update, List.lookup, beq_eq_false_iff_ne.mpr h]
    · by_cases h2 : id2 = n
      · subst h2
        simp [fs_update, hn, List.lookup]
      · simp [fs_update, hn, List.lookup, beq_eq_false_iff_ne.mpr h2, ih]

theorem fs_names_update (fs : FS) (id : String) (e : DirEntry) :
    fs_names (fs_update fs id e) = fs_names fs := by
  induction fs with
  | nil => rfl
  | cons pr rest ih =>
    obtain ⟨n, d⟩ := pr
    by_cases hn : n = id
    · simp [fs_update, hn, fs_names]
    · simp only [fs_update, if_neg hn]
      simp [fs_names] at ih ⊢
      exact ih

theorem lookup_append_last (fs : FS) (id : String) (e : DirEntry)
    (h : fs.lookup id = none) : (fs ++ [(id, e)]).lookup id = some e := by
  rw [lookup_append, h]
  simp [List.lookup]

theorem lookup_append_frame (fs : FS) (id id2 : String) (e : DirEntry)
    (h : id2 ≠ id) : (fs ++ [(id, e)]).lookup id2 = fs.lookup id2 := by
  rw [lookup_append]
  cases hl : fs.lookup id2 with
  | some v => rfl
  | none => simp [List.lookup, beq_eq_false_iff_ne.mpr h]

theorem write_file_success (fs : FS) (id fname : String) (c : FileContent)
    (files : List (String × FileContent))
    (h : fs.lookup id = some (DirEntry.dir files)) :
    write_file fs id fname c =
      (fs_update fs id (DirEntry.dir (files_write files fname c)), none) := by
  simp [write_file, h]

theorem write_file_frame (fs : FS) (id fname : String) (c : FileContent)
    (id2 : String) (h : id2 ≠ id) :
    ((write_file fs id fname c).1).lookup id2 = fs.lookup id2 := by
  unfold write_file
  cases hl : fs.lookup id with
  | none => rfl
  | some e =>
    cases e with
    | file => rfl
    | dir files => exact lookup_update_frame fs id id2 _ h

theorem write_file_names (fs : FS) (id fname : String) (c : FileContent) :
    fs_names ((write_file fs id fname c).1) = fs_names fs := by
  unfold write_file
  cases hl : fs.lookup id with
  | none => rfl
  | some e =>
    cases e with
    | file => rfl
    | dir files => exact fs_names_update fs id _

theorem write_step (fs : FS) (id fname : String) (c : FileContent)
    (files : List (String × FileContent))
    (h : fs.lookup id = some (DirEntry.dir files)) :
    ∃ fs1, write_file fs id fname c = (fs1, none) ∧
      fs1.lookup id = some (DirEntry.dir (files_write files fname c)) ∧
      (∀ id2, id2 ≠ id → fs1.lookup id2 = fs.lookup id2) ∧
      fs_names fs1 = fs_names fs := by
  rw [write_file_success fs id fname c files h]
  exact ⟨fs_update fs id (DirEntry.dir (files_write files fname c)), rfl,
    lookup_update_self fs id _ _ h,
    fun id2 h2 => lookup_update_frame fs id id2 _ h2, fs_names_update fs id _⟩

theorem cache_image_for_id_success (id : String) (img : Image) (fs : FS)
    (files : List (String × FileContent))
    (h : fs.lookup id = some (DirEntry.dir files)) :
    ∃ fs2, cache_image_for_id id img fs = (fs2, none) ∧
      fs2.lookup id = some (DirEntry.dir
        (files_write (files_write (files_write files
          IMAGE_INFO_FILENAME (FileContent.infoJson img.width img.height))
          TEXTURE_FILENAME
          (if img.ioinfo_ext = ".jpg" then FileContent.jpgBytes img.ioinfo_filepath
           else FileContent.reencodedJpg img))
          THUMBNAIL_FILENAME (FileContent.thumbJpg img
            (save_jpg_thumbnail_size img 640).1
            (save_jpg_thumbnail_size img 640).2))) ∧
      (∀ id2, id2 ≠ id → fs2.lookup id2 = fs.lookup id2) ∧
      fs_names fs2 = fs_names fs := by
  obtain ⟨fsA, e1, l1, f1, n1⟩ := write_step fs id IMAGE_INFO_FILENAME
    (FileContent.infoJson img.width img.height) files h
  obtain ⟨fsB, e2, l2, f2, n2⟩ := write_step fsA id TEXTURE_FILENAME
    (if img.ioinfo_ext = ".jpg" then FileContent.jpgBytes img.ioinfo_filepath
     else FileContent.reencodedJpg img) _ l1
  obtain ⟨fsC, e3, l3, f3, n3⟩ := write_step fsB id THUMBNAIL_FILENAME
    (FileContent.thumbJpg img (save_jpg_thumbnail_size img 640).1
      (save_jpg_thumbnail_size img 640).2) _ l2
  refine ⟨fsC, ?_, l3, ?_, n3.trans (n2.trans n1)⟩
  · simp only [cache_image_for_id, e1, e2, e3]
  · intro id2 h2
    exact (f3 id2 h2).trans ((f2 id2 h2).trans (f1 id2 h2))

theorem cache_image_for_id_frame (id : String) (img : Image) (fs : FS)
    (id2 : String) (h : id2 ≠ id) :
    ((cache_image_for_id id img fs).1).lookup id2 = fs.lookup id2 := by
  cases h1 : write_file fs id IMAGE_INFO_FILENAME
      (FileContent.infoJson img.width img.height) with
  | mk fs1 r1 =>
    have e1 : fs1.lookup id2 = fs.lookup id2 := by
      have := write_file_frame fs id IMAGE_INFO_FILENAME
        (FileContent.infoJson img.width img.height) id2 h
      rw [h1] at this
      exact this
    cases r1 with
    | some e =>
      simp only [cache_image_for_id, h1]
      exact e1
    | none =>
      simp only [cache_image_for_id, h1]
      cases h2 : write_file fs1 id TEXTURE_FILENAME
          (if img.ioinfo_ext = ".jpg" then FileContent.jpgBytes img.ioinfo_filepath
           else FileContent.reencodedJpg img) with
      | mk fs2 r2 =>
        have e2 : fs2.lookup id2 = fs1.lookup id2 := by
          have := write_file_frame fs1 id TEXTURE_FILENAME
            (if img.ioinfo_ext = ".jpg" then FileContent.jpgBytes img.ioinfo_filepath
             else FileContent.reencodedJpg img) id2 h
          rw [h2] at this
          exact this
        cases r2 with
        | some e => exact e2.trans e1
        | none =>
          have := write_file_frame fs2 id THUMBNAIL_FILENAME
            (FileContent.thumbJpg img (save_jpg_thumbnail_size img 640).1
              (save_jpg_thumbnail_size img 640).2) id2 h
          exact this.trans (e2.trans e1)

theorem cache_image_for_id_names (id : String) (img : Image) (fs : FS) :
    fs_names ((cache_image_for_id id img fs).1) = fs_names fs := by
  cases h1 : write_file fs id IMAGE_INFO_FILENAME
      (FileContent.infoJson img.width img.height) with
  | mk fs1 r1 =>
    have e1 : fs_names fs1 = fs_names fs := by
      have := write_file_names fs id IMAGE_INFO_FILENAME
        (FileContent.infoJson img.width img.height)
      rw [h1] at this
      exact this
    cases r1 with
    | some e =>
      simp only [cache_image_for_id, h1]
      exact e1
    | none =>
      simp only [cache_image_for_id, h1]
      cases h2 : write_file fs1 id TEXTURE_FILENAME
          (if img.ioinfo_ext = ".jpg" then FileContent.jpgBytes img.ioinfo_filepath
           else FileContent.reencodedJpg img) with
      | mk fs2 r2 =>
        have e2 : fs_names fs2 = fs_names fs1 := by
          have := write_file_names fs1 id TEXTURE_FILENAME
            (if img.ioinfo_ext = ".jpg" then FileContent.jpgBytes img.ioinfo_filepath
             else FileContent.reencodedJpg img)
          rw [h2] at this
          exact this
        cases r2 with
        | some e => exact e2.trans e1
        | none =>
          have := write_file_names fs2 id THUMBNAIL_FILENAME
            (FileContent.thumbJpg img (save_jpg_thumbnail_size img 640).1
              (save_jpg_thumbnail_size img 640).2)
          exact this.trans (e2.trans e1)

theorem cache_mesh_for_id_frame (id : String) (mesh : MeshAsset) (fs : FS)
    (id2 : String) (h : id2 ≠ id) :
    ((cache_mesh_for_id id mesh fs).1).lookup id2 = fs.lookup id2 :=
  write_file_frame fs id MESH_FILENAME (FileContent.gzJson mesh.json) id2 h

theorem cache_mesh_for_id_names (id : String) (mesh : MeshAsset) (fs : FS) :
    fs_names ((cache_mesh_for_id id mesh fs).1) = fs_names fs :=
  write_file_names fs id MESH_FILENAME (FileContent.gzJson mesh.json)

theorem cache_image_frame (imp : String → Except CacheError Image)
    (path id : String) (fs : FS) (id2 : String) (h : id2 ≠ id) :
    ((cache_image imp path id fs).1).lookup id2 = fs.lookup id2 := by
  cases himp : imp path with
  | error e =>
    simp only [cache_image, himp]
  | ok img =>
    simp only [cache_image, himp]
    exact cache_image_for_id_frame id img fs id2 h

theorem cache_image_names (imp : String → Except CacheError Image)
    (path id : String) (fs : FS) :
    fs_names ((cache_image imp path id fs).1) = fs_names fs := by
  cases himp : imp path with
  | error e =>
    simp only [cache_image, himp]
  | ok img =>
    simp only [cache_image, himp]
    exact cache_image_for_id_names id img fs

theorem cache_mesh_frame (imp : String → Except CacheError MeshAsset)
    (path id : String) (fs : FS) (id2 : String) (h : id2 ≠ id) :
    ((cache_mesh imp path id fs).1).lookup id2 = fs.lookup id2 := by
  cases himp : imp path with
  | error e =>
    simp only [cache_mesh, himp]
  | ok mesh =>
    cases htex : mesh.texture with
    | none =>
      simp only [cache_mesh, himp, htex]
      exact cache_mesh_for_id_frame id mesh fs id2 h
    | some tex =>
      simp only [cache_mesh, himp, htex]
      cases hci : cache_image_for_id id tex fs with
      | mk fs1 r1 =>
        have e1 : fs1.lookup id2 = fs.lookup id2 := by
          have := cache_image_for_id_frame id tex fs id2 h
          rw [hci] at this
          exact this
        cases r1 with
        | some e => exact e1
        | none => exact (cache_mesh_for_id_frame id mesh fs1 id2 h).trans e1

theorem cache_mesh_names (imp : String → Except CacheError MeshAsset)
    (path id : String) (fs : FS) :
    fs_names ((cache_mesh imp path id fs).1) = fs_names fs := by
  cases himp : imp path with
  | error e =>
    simp only [cache_mesh, himp]
  | ok mesh =>
    cases htex : mesh.texture with
    | none =>
      simp only [cache_mesh, himp, htex]
      exact cache_mesh_for_id_names id mesh fs
    | some tex =>
      simp only [cache_mesh, himp, htex]
      cases hci : cache_image_for_id id tex fs with
      | mk fs1 r1 =>
        have e1 : fs_names fs1 = fs_names fs := by
          have := cache_image_for_id_names id tex fs
          rw [hci] at this
          exact this
        cases r1 with
        | some e => exact e1
        | none => exact (cache_mesh_for_id_names id mesh fs1).trans e1

/-- Claim C8: for every mesh asset whose id has no cache entry yet, a
textured decoded mesh produces a cache entry holding exactly the four
files metadata, texture, thumbnail and geometry — the image pipeline
running against the embedded texture into the same asset cache
subdirectory — while a plain decoded mesh produces an entry holding
only the geometry file. -/
theorem cache_mesh_entry_files
    (importMesh : String → Except CacheError MeshAsset) (path id : String)
    (fs : FS) (mesh : MeshAsset)
    (him : importMesh path = Except.ok mesh)
    (hfs : fs.lookup id = none) :
    (∀ tex, mesh.texture = some tex →
      ∃ files, (cache_asset (cache_mesh importMesh) path id fs).2 = none ∧
        ((cache_asset (cache_mesh importMesh) path id fs).1).lookup id =
          some (DirEntry.dir files) ∧
        files.map Prod.fst =
          [IMAGE_INFO_FILENAME, TEXTURE_FILENAME, THUMBNAIL_FILENAME,
            MESH_FILENAME]) ∧
    (mesh.texture = none →
      ∃ files, (cache_asset (cache_mesh importMesh) path id fs).2 = none ∧
        ((cache_asset (cache_mesh importMesh) path id fs).1).lookup id =
          some (DirEntry.dir files) ∧
        files.map Prod.fst = [MESH_FILENAME]) := by
  have hA : (fs ++ [(id, DirEntry.dir [])]).lookup id = some (DirEntry.dir []) :=
    lookup_append_last fs id _ hfs
  constructor
  · intro tex htex
    obtain ⟨fs2, hc, hl2, _, _⟩ :=
      cache_image_for_id_success id tex (fs ++ [(id, DirEntry.dir [])]) [] hA
    have hw := write_file_success fs2 id MESH_FILENAME
      (FileContent.gzJson mesh.json) _ hl2
    have hca : cache_asset (cache_mesh importMesh) path id fs =
        (fs_update fs2 id (DirEntry.dir (files_write
          (files_write (files_write (files_write []
            IMAGE_INFO_FILENAME (FileContent.infoJson tex.width tex.height))
            TEXTURE_FILENAME
            (if tex.ioinfo_ext = ".jpg" then FileContent.jpgBytes tex.ioinfo_filepath
             else FileContent.reencodedJpg tex))
            THUMBNAIL_FILENAME (FileContent.thumbJpg tex
              (save_jpg_thumbnail_size tex 640).1
              (save_jpg_thumbnail_size tex 640).2))
          MESH_FILENAME (FileContent.gzJson mesh.json))), none) := by
      simp only [cache_asset, hfs, cache_mesh, him, htex, hc, cache_mesh_for_id, hw]
    refine ⟨files_write
        (files_write (files_write (files_write []
          IMAGE_INFO_FILENAME (FileContent.infoJson tex.width tex.height))
          TEXTURE_FILENAME
          (if tex.ioinfo_ext = ".jpg" then FileContent.jpgBytes tex.ioinfo_filepath
           else FileContent.reencodedJpg tex))
          THUMBNAIL_FILENAME (FileContent.thumbJpg tex
            (save_jpg_thumbnail_size tex 640).1
            (save_jpg_thumbnail_size tex 640).2))
        MESH_FILENAME (FileContent.gzJson mesh.json), by rw [hca], ?_, by rfl⟩
    rw [hca]
    exact lookup_update_self fs2 id _ _ hl2
  · intro htex
    have hw := write_file_success (fs ++ [(id, DirEntry.dir [])]) id
      MESH_FILENAME (FileContent.gzJson mesh.json) [] hA
    have hca : cache_asset (cache_mesh importMesh) path id fs =
        (fs_update (fs ++ [(id, DirEntry.dir [])]) id
          (DirEntry.dir (files_write [] MESH_FILENAME
            (FileContent.gzJson mesh.json))), none) := by
      simp only [cache_asset, hfs, cache_mesh, him, htex, cache_mesh_for_id, hw]
    refine ⟨files_write [] MESH_FILENAME (FileContent.gzJson mesh.json),
      by rw [hca], ?_, rfl⟩
    rw [hca]
    exact lookup_update_self _ id _ _ hA

theorem cache_asset_frame (cache_f : CacheF)
    (hframe : ∀ p i fs0 id2, id2 ≠ i → ((cache_f p i fs0).1).lookup id2 = fs0.lookup id2)
    (path id : String) (fs : FS) (id2 : String) (h : id2 ≠ id) :
    ((cache_asset cache_f path id fs).1).lookup id2 = fs.lookup id2 := by
  cases hl : fs.lookup id with
  | none =>
    simp only [cache_asset, hl]
    exact (hframe path id _ id2 h).trans (lookup_append_frame fs id id2 _ h)
  | some e =>
    cases e with
    | file => simp only [cache_asset, hl]
    | dir files =>
      simp only [cache_asset, hl]
      exact hframe path id fs id2 h

theorem cache_asset_names_super (cache_f : CacheF)
    (hnames : ∀ p i fs0, fs_names ((cache_f p i fs0).1) = fs_names fs0)
    (path id : String) (fs : FS) :
    fs_names fs ⊆ fs_names ((cache_asset cache_f path id fs).1) := by
  cases hl : fs.lookup id with
  | none =>
    simp only [cache_asset, hl]
    rw [hnames path id (fs ++ [(id, DirEntry.dir [])])]
    have hsplit : fs_names (fs ++ [(id, DirEntry.dir [])]) = fs_names fs ++ [id] := by
      simp [fs_names]
    rw [hsplit]
    exact List.subset_append_left _ _
  | some e =>
    cases e with
    | file =>
      simp only [cache_asset, hl]
      exact fun x hx => hx
    | dir files =>
      simp only [cache_asset, hl]
      rw [hnames path id fs]
      exact fun x hx => hx

theorem cache_asset_ensures (cache_f : CacheF)
    (hnames : ∀ p i fs0, fs_names ((cache_f p i fs0).1) = fs_names fs0)
    (path id : String) (fs : FS)
    (hok : (cache_asset cache_f path id fs).2 = none) :
    id ∈ fs_names ((cache_asset cache_f path id fs).1) := by
  cases hl : fs.lookup id with
  | none =>
    simp only [cache_asset, hl]
    rw [hnames path id (fs ++ [(id, DirEntry.dir [])])]
    simp [fs_names]
  | some e =>
    cases e with
    | file =>
      have hcon : (cache_asset cache_f path id fs).2 =
          some (CacheError.fileExists id) := by
        simp [cache_asset, hl]
      rw [hcon] at hok
      cases hok
    | dir files =>
      simp only [cache_asset, hl]
      rw [hnames path id fs]
      have hne : fs.lookup id ≠ none := by rw [hl]; exact fun hcon => by cases hcon
      by_contra hno
      exact hne ((lookup_eq_none_iff fs id).mpr hno)

theorem serialCacherAux_frame (cache : CacheF) (total : Nat) (id0 : String) :
    ∀ (pairs : List (String × String)) (i : Nat) (fs : FS),
    (∀ pr ∈ pairs, ∀ fs0 : FS, ((cache pr.1 pr.2 fs0).1).lookup id0 = fs0.lookup id0) →
    ((serialCacherAux cache total i pairs fs).2.1).lookup id0 = fs.lookup id0 := by
  intro pairs
  induction pairs with
  | nil =>
    intro i fs _
    rw [serialCacherAux_nil]
  | cons pr rest ih =>
    intro i fs hstep
    obtain ⟨path, id⟩ := pr
    cases hc : cache path id fs with
    | mk fs1 r =>
      have e1 : fs1.lookup id0 = fs.lookup id0 := by
        have := hstep (path, id) (by simp) fs
        rw [hc] at this
        exact this
      rw [serialCacherAux_cons, hc]
      cases r with
      | some e => exact e1
      | none =>
        exact (ih (i + 1) fs1 (fun pr2 hpr2 fs0 => hstep pr2 (by simp [hpr2]) fs0)).trans e1

theorem serialCacherAux_names (cache : CacheF) (total : Nat)
    (hmono : ∀ p i2 fs0, fs_names fs0 ⊆ fs_names ((cache p i2 fs0).1)) :
    ∀ (pairs : List (String × String)) (i : Nat) (fs : FS),
    fs_names fs ⊆ fs_names ((serialCacherAux cache total i pairs fs).2.1) := by
  intro pairs
  induction pairs with
  | nil =>
    intro i fs
    rw [serialCacherAux_nil]
    exact fun x hx => hx
  | cons pr rest ih =>
    intro i fs
    obtain ⟨path, id⟩ := pr
    cases hc : cache path id fs with
    | mk fs1 r =>
      have e1 : fs_names fs ⊆ fs_names fs1 := by
        have := hmono path id fs
        rw [hc] at this
        exact this
      rw [serialCacherAux_cons, hc]
      cases r with
      | some e => exact e1
      | none => exact fun x hx => ih (i + 1) fs1 (e1 hx)

theorem serialCacherAux_success_ids (cache : CacheF) (total : Nat)
    (hmono : ∀ p i2 fs0, fs_names fs0 ⊆ fs_names ((cache p i2 fs0).1))
    (hens : ∀ p i2 fs0, (cache p i2 fs0).2 = none →
      i2 ∈ fs_names ((cache p i2 fs0).1)) :
    ∀ (pairs : List (String × String)) (i : Nat) (fs : FS),
    (serialCacherAux cache total i pairs fs).2.2 = none →
    ∀ pr ∈ pairs, pr.2 ∈ fs_names ((serialCacherAux cache total i pairs fs).2.1) := by
  intro pairs
  induction pairs with
  | nil =>
    intro i fs _ pr hpr
    simp at hpr
  | cons pr0 rest ih =>
    intro i fs hok pr hpr
    obtain ⟨path, id⟩ := pr0
    cases hc : cache path id fs with
    | mk fs1 r =>
      rw [serialCacherAux_cons, hc] at hok ⊢
      cases r with
      | some e => simp at hok
      | none =>
        rcases List.mem_cons.mp hpr with h1 | h1
        · subst h1
          have hin : id ∈ fs_names fs1 := by
            have := hens path id fs (by rw [hc])
            rw [hc] at this
            exact this
          exact serialCacherAux_names cache total hmono rest (i + 1) fs1 hin
        · exact ih (i + 1) fs1 hok pr h1

theorem uncached_pairs_excludes (setToList : List String → List String)
    (hperm : ∀ l : List String, List.Perm (setToList l) l)
    (m : List (String × String)) (fs : FS) (id : String)
    (hid : id ∈ fs_names fs) :
    id ∉ uncached_ids m fs ∧ id ∉ (uncached_pairs setToList m fs).map Prod.snd := by
  have h1 : id ∉ uncached_ids m fs := by
    intro hmem
    rw [uncached_ids, List.mem_filter] at hmem
    exact (of_decide_eq_true hmem.2) hid
  refine ⟨h1, ?_⟩
  rw [uncached_pairs, map_snd_map_pair]
  intro hmem
  exact h1 ((hperm (uncached_ids m fs)).mem_iff.mp hmem)

/-- Claim C9: in every run of `build_cache`, an asset id is excluded
from the uncached set whenever an entry of that name exists in the
cache directory's non-recursive listing — even when that entry is a
regular file rather than a subdirectory — so the caching pipeline is
never invoked for it; no check is made that the entry is a directory
or complete. -/
theorem existing_entry_excluded_from_uncached
    (setToList : List String → List String)
    (hperm : ∀ l : List String, List.Perm (setToList l) l)
    (m : List (String × String)) (fs : FS) (id : String) (e : DirEntry)
    (h : fs.lookup id = some e) :
    id ∉ uncached_ids m fs ∧
    id ∉ (uncached_pairs setToList m fs).map Prod.snd := by
  have hid : id ∈ fs_names fs := by
    by_contra hno
    have hnone : fs.lookup id = none :=
      (lookup_eq_none_iff fs id).mpr (by simpa [assocKeys, fs_names] using hno)
    rw [h] at hnone
    cases hnone
  exact uncached_pairs_excludes setToList hperm m fs id hid

theorem existing_entry_excluded_from_uncached_witness :
    (∀ l : List String, List.Perm ((fun l => l) l) l) ∧
    (([("a", DirEntry.file)] : FS).lookup "a" = some DirEntry.file) ∧
    ("a" ∉ uncached_ids [("a", "x/a.jpg"), ("b", "x/b.jpg")] [("a", DirEntry.file)] ∧
     "a" ∉ (uncached_pairs (fun l => l) [("a", "x/a.jpg"), ("b", "x/b.jpg")]
       [("a", DirEntry.file)]).map Prod.snd) :=
  ⟨fun l => List.Perm.refl l, by decide,
    existing_entry_excluded_from_uncached (fun l => l)
      (fun l => List.Perm.refl l) [("a", "x/a.jpg"), ("b", "x/b.jpg")]
      [("a", DirEntry.file)] "a" DirEntry.file (by decide)⟩

theorem build_cache_frame_generic (setToList : List String → List String)
    (hperm : ∀ l : List String, List.Perm (setToList l) l) (cache_f : CacheF)
    (hframe : ∀ p i fs0 id2, id2 ≠ i →
      ((cache_f p i fs0).1).lookup id2 = fs0.lookup id2)
    (asset_paths : List String) (cache_dir : String) (fs : FS) (id : String)
    (hid : id ∈ fs_names fs) :
    ((build_cache serial_cacher setToList asset_paths cache_f
        cache_dir fs).2.1).lookup id = fs.lookup id := by
  cases hm : build_asset_mapping asset_paths with
  | error e => simp only [build_cache, hm]
  | ok m =>
    have hexc := uncached_pairs_excludes setToList hperm m fs id hid
    have hser : ((serialCacherAux (cache_asset cache_f)
        (uncached_pairs setToList m fs).length 0
        (uncached_pairs setToList m fs) fs).2.1).lookup id = fs.lookup id := by
      apply serialCacherAux_frame
      intro pr hpr fs0
      refine cache_asset_frame cache_f hframe pr.1 pr.2 fs0 id ?_
      intro heq
      exact hexc.2 (heq ▸ List.mem_map_of_mem Prod.snd hpr)
    simp only [build_cache, hm, serial_cacher]
    cases hr : (serialCacherAux (cache_asset cache_f)
        (uncached_pairs setToList m fs).length 0
        (uncached_pairs setToList m fs) fs).2.2 with
    | some e => exact hser
    | none => exact hser

/-- Claim C10: a run of `build_cache` never writes to cache entries
whose ids are already present in the cache directory listing: the
caching pipeline (image or mesh variant) is invoked only for ids in
the uncached set, so every pre-existing cache entry is left exactly as
it was. -/
theorem build_cache_preserves_existing_entries
    (setToList : List String → List String)
    (hperm : ∀ l : List String, List.Perm (setToList l) l)
    (impI : String → Except CacheError Image)
    (impM : String → Except CacheError MeshAsset)
    (asset_paths : List String) (cache_dir : String) (fs : FS) (id : String)
    (hid : id ∈ fs_names fs) :
    ((build_cache serial_cacher setToList asset_paths (cache_image impI)
        cache_dir fs).2.1).lookup id = fs.lookup id ∧
    ((build_cache serial_cacher setToList asset_paths (cache_mesh impM)
        cache_dir fs).2.1).lookup id = fs.lookup id :=
  ⟨build_cache_frame_generic setToList hperm (cache_image impI)
      (fun p i fs0 id2 h2 => cache_image_frame impI p i fs0 id2 h2)
      asset_paths cache_dir fs id hid,
    build_cache_frame_generic setToList hperm (cache_mesh impM)
      (fun p i fs0 id2 h2 => cache_mesh_frame impM p i fs0 id2 h2)
      asset_paths cache_dir fs id hid⟩

theorem build_cache_preserves_existing_entries_witness :
    (∀ l : List String, List.Perm ((fun l => l) l) l) ∧
    ("a" ∈ fs_names [("a", DirEntry.dir [("texture", FileContent.jpgBytes "old")])]) ∧
    (((build_cache serial_cacher (fun l => l) ["x/a.jpg", "y/b.jpg"]
        (cache_image (fun p => Except.ok (Image.mk 800 600 ".jpg" p))) "cdir"
        [("a", DirEntry.dir [("texture", FileContent.jpgBytes "old")])]).2.1).lookup "a" =
      ([("a", DirEntry.dir [("texture", FileContent.jpgBytes "old")])] : FS).lookup "a" ∧
     ((build_cache serial_cacher (fun l => l) ["x/a.jpg", "y/b.jpg"]
        (cache_mesh (fun _ => Except.ok (MeshAsset.mk "geo" none))) "cdir"
        [("a", DirEntry.dir [("texture", FileContent.jpgBytes "old")])]).2.1).lookup "a" =
      ([("a", DirEntry.dir [("texture", FileContent.jpgBytes "old")])] : FS).lookup "a") :=
  ⟨fun l => List.Perm.refl l, by decide,
    build_cache_preserves_existing_entries (fun l => l)
      (fun l => List.Perm.refl l)
      (fun p => Except.ok (Image.mk 800 600 ".jpg" p))
      (fun _ => Except.ok (MeshAsset.mk "geo" none))
      ["x/a.jpg", "y/b.jpg"] "cdir"
      [("a", DirEntry.dir [("texture", FileContent.jpgBytes "old")])] "a"
      (by decide)⟩

/-- Claim C5: invoking the build twice with unchanged asset_dir and
cache_dir contents is idempotent: after a first run that completes
without error every asset id has a cache entry, so the second run's
uncached set (full id set minus existing cache-directory entry names)
is empty and the second run performs no caching work, leaving the
state untouched and reporting zero assets to add. -/
theorem build_cache_idempotent
    (setToList : List String → List String)
    (hperm : ∀ l : List String, List.Perm (setToList l) l)
    (cache_f : CacheF)
    (hnames : ∀ p i fs0, fs_names ((cache_f p i fs0).1) = fs_names fs0)
    (asset_paths : List String) (cache_dir : String) (fs0 : FS)
    (m : List (String × String)) (log1 : List String) (fs1 : FS)
    (hm : build_asset_mapping asset_paths = Except.ok m)
    (hrun : build_cache serial_cacher setToList asset_paths cache_f cache_dir fs0 =
      (log1, fs1, Except.ok cache_dir)) :
    (∀ id ∈ m.map Prod.fst, id ∈ fs_names fs1) ∧
    uncached_pairs setToList m fs1 = [] ∧
    build_cache serial_cacher setToList asset_paths cache_f cache_dir fs1 =
      (["0 assets need to be added to the cache"], fs1, Except.ok cache_dir) := by
  have hmono : ∀ p i2 fs2, fs_names fs2 ⊆
      fs_names ((cache_asset cache_f p i2 fs2).1) :=
    fun p i2 fs2 => cache_asset_names_super cache_f hnames p i2 fs2
  have hens : ∀ p i2 fs2, (cache_asset cache_f p i2 fs2).2 = none →
      i2 ∈ fs_names ((cache_asset cache_f p i2 fs2).1) :=
    fun p i2 fs2 h => cache_asset_ensures cache_f hnames p i2 fs2 h
  simp only [build_cache, hm, serial_cacher] at hrun
  cases hr : (serialCacherAux (cache_asset cache_f)
      (uncached_pairs setToList m fs0).length 0
      (uncached_pairs setToList m fs0) fs0).2.2 with
  | some e =>
    rw [hr] at hrun
    simp at hrun
  | none =>
    rw [hr] at hrun
    have hfs1 : (serialCacherAux (cache_asset cache_f)
        (uncached_pairs setToList m fs0).length 0
        (uncached_pairs setToList m fs0) fs0).2.1 = fs1 := by
      have := congrArg (fun t => t.2.1) hrun
      simpa using this
    have hall : ∀ id ∈ m.map Prod.fst, id ∈ fs_names fs1 := by
      intro id hidm
      by_cases hin : id ∈ fs_names fs0
      · have := serialCacherAux_names (cache_asset cache_f)
          (uncached_pairs setToList m fs0).length hmono
          (uncached_pairs setToList m fs0) 0 fs0 hin
        rw [hfs1] at this
        exact this
      · have hidun : id ∈ uncached_ids m fs0 := by
          rw [uncached_ids, List.mem_filter]
          exact ⟨hidm, by simpa using hin⟩
        have hpairmem : ((m.lookup id).getD "", id) ∈
            uncached_pairs setToList m fs0 := by
          rw [uncached_pairs]
          exact List.mem_map_of_mem _ ((hperm _).mem_iff.mpr hidun)
        have := serialCacherAux_success_ids (cache_asset cache_f)
          (uncached_pairs setToList m fs0).length hmono hens
          (uncached_pairs setToList m fs0) 0 fs0 hr
          ((m.lookup id).getD "", id) hpairmem
        rw [hfs1] at this
        exact this
    have hids1 : uncached_ids m fs1 = [] := by
      rw [uncached_ids, List.filter_eq_nil_iff]
      intro a ha
      simpa using hall a ha
    have hpairs1 : uncached_pairs setToList m fs1 = [] := by
      rw [uncached_pairs, hids1, (hperm []).eq_nil]
      rfl
    refine ⟨hall, hpairs1, ?_⟩
    simp only [build_cache, hm, serial_cacher, hpairs1, serialCacherAux_nil]
    rfl

theorem build_cache_idempotent_witness :
    (∀ l : List String, List.Perm ((fun l => l) l) l) ∧
    (∀ p i fs0, fs_names ((cache_image
        (fun q => Except.ok (Image.mk 800 600 ".jpg" q)) p i fs0).1) = fs_names fs0) ∧
    (build_asset_mapping ["x/a.jpg"] = Except.ok [("a", "x/a.jpg")]) ∧
    (build_cache serial_cacher (fun l => l) ["x/a.jpg"]
        (cache_image (fun q => Except.ok (Image.mk 800 600 ".jpg" q))) "cdir" [] =
      (["1 assets need to be added to the cache", "Caching 1/1 - a",
         "1 assets cached."],
       [("a", DirEntry.dir [("image-info", FileContent.infoJson 800 600),
          ("texture", FileContent.jpgBytes "x/a.jpg"),
          ("thumbnail", FileContent.thumbJpg
            (Image.mk 800 600 ".jpg" "x/a.jpg") 640 480)])],
       Except.ok "cdir")) ∧
    ((∀ id ∈ ([("a", "x/a.jpg")] : List (String × String)).map Prod.fst,
        id ∈ fs_names [("a", DirEntry.dir [("image-info", FileContent.infoJson 800 600),
          ("texture", FileContent.jpgBytes "x/a.jpg"),
          ("thumbnail", FileContent.thumbJpg
            (Image.mk 800 600 ".jpg" "x/a.jpg") 640 480)])]) ∧
      uncached_pairs (fun l => l) [("a", "x/a.jpg")]
        [("a", DirEntry.dir [("image-info", FileContent.infoJson 800 600),
          ("texture", FileContent.jpgBytes "x/a.jpg"),
          ("thumbnail", FileContent.thumbJpg
            (Image.mk 800 600 ".jpg" "x/a.jpg") 640 480)])] = [] ∧
      build_cache serial_cacher (fun l => l) ["x/a.jpg"]
        (cache_image (fun q => Except.ok (Image.mk 800 600 ".jpg" q))) "cdir"
        [("a", DirEntry.dir [("image-info", FileContent.infoJson 800 600),
          ("texture", FileContent.jpgBytes "x/a.jpg"),
          ("thumbnail", FileContent.thumbJpg
            (Image.mk 800 600 ".jpg" "x/a.jpg") 640 480)])] =
        (["0 assets need to be added to the cache"],
         [("a", DirEntry.dir [("image-info", FileContent.infoJson 800 600),
            ("texture", FileContent.jpgBytes "x/a.jpg"),
            ("thumbnail", FileContent.thumbJpg
              (Image.mk 800 600 ".jpg" "x/a.jpg") 640 480)])],
         Except.ok "cdir")) :=
  ⟨fun l => List.Perm.refl l,
    fun p i fs0 => cache_image_names (fun q => Except.ok (Image.mk 800 600 ".jpg" q)) p i fs0,
    by rfl, by rfl,
    build_cache_idempotent (fun l => l) (fun l => List.Perm.refl l)
      (cache_image (fun q => Except.ok (Image.mk 800 600 ".jpg" q)))
      (fun p i fs0 => cache_image_names
        (fun q => Except.ok (Image.mk 800 600 ".jpg" q)) p i fs0)
      ["x/a.jpg"] "cdir" []
      [("a", "x/a.jpg")]
      ["1 assets need to be added to the cache", "Caching 1/1 - a",
        "1 assets cached."]
      [("a", DirEntry.dir [("image-info", FileContent.infoJson 800 600),
        ("texture", FileContent.jpgBytes "x/a.jpg"),
        ("thumbnail", FileContent.thumbJpg
          (Image.mk 800 600 ".jpg" "x/a.jpg") 640 480)])]
      (by rfl) (by rfl)⟩

/-- Claim C2 (amended): for a fixed set of asset paths and fixed
cache-directory contents, the collection of uncached assets that
`build_cache` processes is determined by the inputs — any two
admissible enumerations of the uncached id set yield work lists that
are permutations of each other — but the processing *order* is not
deterministic: the code iterates the in-memory hash set directly,
without sorting, so the order follows the set's unspecified
enumeration. -/
theorem uncached_processing_set_deterministic
    (setToList1 setToList2 : List String → List String)
    (hperm1 : ∀ l : List String, List.Perm (setToList1 l) l)
    (hperm2 : ∀ l : List String, List.Perm (setToList2 l) l)
    (m : List (String × String)) (fs : FS) :
    List.Perm (uncached_pairs setToList1 m fs) (uncached_pairs setToList2 m fs) := by
  rw [uncached_pairs, uncached_pairs]
  exact ((hperm1 _).trans (hperm2 _).symm).map _

theorem uncached_processing_set_deterministic_witness :
    (∀ l : List String, List.Perm ((fun l => l) l) l) ∧
    (∀ l : List String, List.Perm (List.reverse l) l) ∧
    List.Perm
      (uncached_pairs (fun l => l) [("a", "x/a.jpg"), ("b", "x/b.jpg")] [])
      (uncached_pairs List.reverse [("a", "x/a.jpg"), ("b", "x/b.jpg")] []) :=
  ⟨fun l => List.Perm.refl l, fun l => List.reverse_perm l,
    uncached_processing_set_deterministic (fun l => l) List.reverse
      (fun l => List.Perm.refl l) (fun l => List.reverse_perm l)
      [("a", "x/a.jpg"), ("b", "x/b.jpg")] []⟩

/-- Counterexample to claim C2 as stated: with asset ids `a` and `b`
and an empty cache directory, the identity enumeration and the reverse
enumeration are both admissible orders of the uncached id set (each is
a permutation of it), yet they make `build_cache` process the
uncached assets in different orders — the work-list order is the hash
set's enumeration order, which the inputs do not determine. -/
theorem uncached_processing_order_not_deterministic :
    List.Perm ((fun (l : List String) => l) ["a", "b"]) ["a", "b"] ∧
    List.Perm (List.reverse ["a", "b"]) (["a", "b"] : List String) ∧
    uncached_ids [("a", "x/a.jpg"), ("b", "x/b.jpg")] [] = ["a", "b"] ∧
    uncached_pairs (fun l => l) [("a", "x/a.jpg"), ("b", "x/b.jpg")] [] =
      [("x/a.jpg", "a"), ("x/b.jpg", "b")] ∧
    uncached_pairs List.reverse [("a", "x/a.jpg"), ("b", "x/b.jpg")] [] =
      [("x/b.jpg", "b"), ("x/a.jpg", "a")] ∧
    uncached_pairs (fun l => l) [("a", "x/a.jpg"), ("b", "x/b.jpg")] [] ≠
      uncached_pairs List.reverse [("a", "x/a.jpg"), ("b", "x/b.jpg")] [] :=
  ⟨by decide, by decide, by decide, by decide, by decide, by decide⟩

theorem cache_mesh_entry_files_witness :
    ((fun (_ : String) => (Except.ok (MeshAsset.mk "geo"
        (some (Image.mk 4 3 ".png" "t.png"))) : Except CacheError MeshAsset))
        "x/m.obj" =
      Except.ok (MeshAsset.mk "geo" (some (Image.mk 4 3 ".png" "t.png")))) ∧
    (([] : FS).lookup "m" = none) ∧
    (∃ files, (cache_asset (cache_mesh (fun _ => Except.ok (MeshAsset.mk "geo"
        (some (Image.mk 4 3 ".png" "t.png"))))) "x/m.obj" "m" []).2 = none ∧
      ((cache_asset (cache_mesh (fun _ => Except.ok (MeshAsset.mk "geo"
        (some (Image.mk 4 3 ".png" "t.png"))))) "x/m.obj" "m" []).1).lookup "m" =
        some (DirEntry.dir files) ∧
      files.map Prod.fst = [IMAGE_INFO_FILENAME, TEXTURE_FILENAME,
        THUMBNAIL_FILENAME, MESH_FILENAME]) ∧
    ((fun (_ : String) => (Except.ok (MeshAsset.mk "geo2" none) :
        Except CacheError MeshAsset)) "x/p.obj" =
      Except.ok (MeshAsset.mk "geo2" none)) ∧
    (([] : FS).lookup "p" = none) ∧
    (∃ files, (cache_asset (cache_mesh (fun _ => Except.ok
        (MeshAsset.mk "geo2" none))) "x/p.obj" "p" []).2 = none ∧
      ((cache_asset (cache_mesh (fun _ => Except.ok
        (MeshAsset.mk "geo2" none))) "x/p.obj" "p" []).1).lookup "p" =
        some (DirEntry.dir files) ∧
      files.map Prod.fst = [MESH_FILENAME]) :=
  ⟨rfl, rfl,
    (cache_mesh_entry_files
      (fun _ => Except.ok (MeshAsset.mk "geo" (some (Image.mk 4 3 ".png" "t.png"))))
      "x/m.obj" "m" [] (MeshAsset.mk "geo" (some (Image.mk 4 3 ".png" "t.png")))
      rfl rfl).1 (Image.mk 4 3 ".png" "t.png") rfl,
    rfl, rfl,
    (cache_mesh_entry_files (fun _ => Except.ok (MeshAsset.mk "geo2" none))
      "x/p.obj" "p" [] (MeshAsset.mk "geo2" none) rfl rfl).2 rfl⟩

end Landmarkerio
